import Mathlib

/-!
Shallow embedding of the feed-assembly core of `enhanced_minimal_rss.py`:
the text normalizer (`clean_text`), RSS item derivation
(`add_article_to_feed`), publication-date resolution and the combined-feed
sort (`generate_combined_feed`), the journal registry lookup
(`find_journal_by_identifier`), the combined-feed per-journal limit
(`serve_combined_rss`), and the fetch error policy
(`get_recent_articles_by_issn`).

Text is modelled as `List Char`; Python strings map to character lists.
-/

set_option maxRecDepth 20000

/-- Text alias: a Python string as a list of characters. -/
abbrev Str := List Char

/-- Python regex character class `\s` over the ASCII range (space, tab,
newline, carriage return, vertical tab, form feed), as used by
`re.sub` with pattern backslash-s-plus, and by `str.strip()`. -/
def isPySpace (c : Char) : Bool :=
  c = ' ' || c = '\t' || c = '\n' || c = '\r' || c = '\x0b' || c = '\x0c'

/-- Model of Python `html.unescape` (line 94) restricted to the five XML
named entities with trailing semicolon. The source delegates to the full
HTML5 entity table; the feeds' inputs and the spec exercise exactly these. -/
def unescape : Str → Str
  | [] => []
  | '&' :: 'a' :: 'm' :: 'p' :: ';' :: rest => '&' :: unescape rest
  | '&' :: 'l' :: 't' :: ';' :: rest => '<' :: unescape rest
  | '&' :: 'g' :: 't' :: ';' :: rest => '>' :: unescape rest
  | '&' :: 'q' :: 'u' :: 'o' :: 't' :: ';' :: rest => '"' :: unescape rest
  | '&' :: 'a' :: 'p' :: 'o' :: 's' :: ';' :: rest => '\'' :: unescape rest
  | c :: rest => c :: unescape rest

/-- State machine for `re.sub` with pattern `<[^>]+>` replaced by the empty
string (line 97). The second argument buffers (reversed) the characters seen
since an opening `<` that has not yet been closed; a `>` with a non-empty
buffer completes a match and drops the whole span, a `>` right after `<`
fails the one-or-more requirement and both characters are kept, and an
unclosed `<` is flushed literally at end of input. -/
def stripTagsGo : Str → Option Str → Str
  | [], none => []
  | [], some buf => '<' :: buf.reverse
  | c :: rest, none =>
      if c = '<' then stripTagsGo rest (some [])
      else c :: stripTagsGo rest none
  | c :: rest, some buf =>
      if c = '>' then
        match buf with
        | [] => '<' :: '>' :: stripTagsGo rest none
        | _ :: _ => stripTagsGo rest none
      else stripTagsGo rest (some (c :: buf))

/-- Removal of literal HTML tags: `re.sub` of `<[^>]+>` (line 97). -/
def stripTags (l : Str) : Str := stripTagsGo l none

/-- State machine for `re.sub` with pattern `&lt;[^&]*&gt;` replaced by the
empty string (line 98). The second argument buffers (reversed) the
characters seen since a literal `&lt;`; a literal `&gt;` completes the match
and the span is dropped; any other `&` fails the match (the class excludes
`&`), so the pending `&lt;` and buffer are emitted literally and scanning
resumes at the failing `&`, which may itself begin a new match. -/
def stripEscGo : Str → Option Str → Str
  | [], none => []
  | [], some buf => '&' :: 'l' :: 't' :: ';' :: buf.reverse
  | '&' :: 'l' :: 't' :: ';' :: rest, none => stripEscGo rest (some [])
  | c :: rest, none => c :: stripEscGo rest none
  | '&' :: 'g' :: 't' :: ';' :: rest, some _ => stripEscGo rest none
  | '&' :: 'l' :: 't' :: ';' :: rest, some buf =>
      '&' :: 'l' :: 't' :: ';' :: buf.reverse ++ stripEscGo rest (some [])
  | '&' :: rest, some buf =>
      '&' :: 'l' :: 't' :: ';' :: buf.reverse ++ '&' :: stripEscGo rest none
  | c :: rest, some buf => stripEscGo rest (some (c :: buf))

/-- Removal of entity-escaped HTML tags: `re.sub` of `&lt;[^&]*&gt;`
(line 98). -/
def stripEscTags (l : Str) : Str := stripEscGo l none

/-- State machine for `re.sub` collapsing each maximal whitespace run to a
single space (line 101). The flag records whether the previous character
belonged to a run already replaced. -/
def collapseGo : Str → Bool → Str
  | [], _ => []
  | c :: rest, inRun =>
      if isPySpace c then
        if inRun then collapseGo rest true else ' ' :: collapseGo rest true
      else c :: collapseGo rest false

/-- Whitespace-run collapsing: `re.sub` of one-or-more whitespace with a
single space (line 101). -/
def collapseWs (l : Str) : Str := collapseGo l false

/-- Python `str.strip()` (line 102): drop leading and trailing whitespace. -/
def pyStrip (l : Str) : Str :=
  ((l.dropWhile isPySpace).reverse.dropWhile isPySpace).reverse

/-- `clean_text` (lines 85-104): decode entities, strip literal tags, strip
entity-escaped tags, collapse whitespace runs, trim. An empty input
short-circuits to the empty string in the source; every stage here maps the
empty list to itself, so the composition agrees. -/
def clean_text (l : Str) : Str :=
  pyStrip (collapseWs (stripEscTags (stripTags (unescape l))))


/-- An author entry of a Crossref record: the `given` and `family` fields,
each possibly absent (`author.get('given', '')` defaults them to empty). -/
structure Author where
  given : Option Str
  family : Option Str
deriving DecidableEq, Repr

/-- A raw article record from the metadata service, restricted to the
fields the feed assembler reads: `title` (a sequence of strings, possibly
absent), `DOI`, `abstract`, `author`, and `published['date-parts']`
(a list of integer lists, absent when the record has no `published` field
or the dict lacks the key). -/
structure Article where
  title : Option (List Str)
  doi : Option Str
  abstract : Option Str
  author : List Author
  published : Option (List (List Int))
deriving DecidableEq, Repr

/-- A `datetime.date`-like value as produced by `datetime(y, m, d)`. -/
structure PyDate where
  year : Int
  month : Int
  day : Int
deriving DecidableEq, Repr

/-- Python `datetime.min`, i.e. `datetime(1, 1, 1)`. -/
def datetimeMin : PyDate := ⟨1, 1, 1⟩

/-- Gregorian leap-year rule used by `datetime` validation. -/
def isLeapYear (y : Int) : Bool :=
  (y % 4 = 0 && y % 100 ≠ 0) || y % 400 = 0

/-- Number of days of month `m` in year `y`, as validated by `datetime`. -/
def daysInMonth (y m : Int) : Int :=
  if m = 2 then (if isLeapYear y then 29 else 28)
  else if m = 4 || m = 6 || m = 9 || m = 11 then 30
  else 31

/-- `datetime(y, m, d)`: `some` of the date when the components are in
range, `none` when the constructor would raise (caught by the bare
`except` clauses at lines 265-266 and 326-327). -/
def mkDatetime (y m d : Int) : Option PyDate :=
  if 1 ≤ y ∧ y ≤ 9999 ∧ 1 ≤ m ∧ m ≤ 12 ∧ 1 ≤ d ∧ d ≤ daysInMonth y m
  then some ⟨y, m, d⟩ else none

/-- Resolution of a record's `published['date-parts']` to a date, shared by
`add_article_to_feed` (lines 252-266) and `get_pub_date` (lines 315-328):
the first date-parts entry resolves as `[y]` to January 1 of `y`, `[y, m]`
to the first of the month, `[y, m, d]` to that date; a missing `published`
field, a missing or empty `date-parts` list, an empty first entry
(`IndexError`), or out-of-range components (`ValueError`) give `none`
(no `pubDate` element in the item; `datetime.min` in the combined sort). -/
def resolvePubDate (published : Option (List (List Int))) : Option PyDate :=
  match published with
  | none => none
  | some [] => none
  | some (dp :: _) =>
    match dp with
    | [] => none
    | [y] => mkDatetime y 1 1
    | [y, m] => mkDatetime y m 1
    | y :: m :: d :: _ => mkDatetime y m d

/-- `get_pub_date` (lines 315-328): the combined-sort key, falling back to
`datetime.min` when the date does not resolve. -/
def get_pub_date (a : Article) : PyDate :=
  (resolvePubDate a.published).getD datetimeMin

/-- Python `sep.join(parts)`. -/
def joinSep (sep : Str) : List Str → Str
  | [] => []
  | [x] => x
  | x :: y :: rest => x ++ sep ++ joinSep sep (y :: rest)

/-- One author's rendered name (lines 230-240): the cleaned `given` and
`family` parts that are non-empty, joined by a space; empty when both
parts clean to the empty string. -/
def authorName (a : Author) : Str :=
  let g := clean_text (a.given.getD [])
  let f := clean_text (a.family.getD [])
  joinSep [' '] ((if g ≠ [] then [g] else []) ++ (if f ≠ [] then [f] else []))

/-- The author-based description fallback (lines 225-246): the non-empty
rendered names of the first three authors, comma-joined, prefixed with
"Authors: " and suffixed with " et al." exactly when the record has more
than three authors; empty when there are no authors or no rendered name. -/
def authorDescription (authors : List Author) : Str :=
  if authors = [] then []
  else if ((authors.take 3).map authorName).filter (fun n => decide (n ≠ [])) = []
  then []
  else "Authors: ".data ++
    joinSep (", ".data)
      (((authors.take 3).map authorName).filter (fun n => decide (n ≠ []))) ++
    (if 3 < authors.length then " et al.".data else [])

/-- The abstract-based description (lines 218-222): when the raw abstract
is present and non-empty, and its cleaned form is non-empty with stripped
length above 10, the cleaned abstract, truncated to 500 characters with an
appended "..." when longer than 500; empty otherwise. -/
def descriptionFromAbstract (abstractField : Option Str) : Str :=
  match abstractField with
  | none => []
  | some a =>
    if a = [] then []
    else if clean_text a ≠ [] ∧ 10 < (pyStrip (clean_text a)).length then
      (if 500 < (clean_text a).length then (clean_text a).take 500 ++ "...".data
       else clean_text a)
    else []

/-- The item description (lines 213-249): the abstract-based text when it
is non-empty, else the author-based fallback, else the literal
"No description available". -/
def itemDescription (article : Article) : Str :=
  if descriptionFromAbstract article.abstract ≠ [] then
    descriptionFromAbstract article.abstract
  else if authorDescription article.author ≠ [] then
    authorDescription article.author
  else "No description available".data

/-- The item title (lines 193-201): the cleaned first element of the title
sequence, with the literal `Untitled` substituted when the field is absent
(`article.get('title', ['Untitled'])`) or the sequence is empty. -/
def itemTitle (article : Article) : Str :=
  clean_text (match article.title with
    | none => "Untitled".data
    | some [] => "Untitled".data
    | some (t :: _) => t)

/-- The item link and guid value (lines 203-211): the DOI resolver URL when
the record carries a non-empty DOI, nothing otherwise (an empty-string DOI
is falsy in `if doi:`). -/
def doiLink (doi : Option Str) : Option Str :=
  match doi with
  | none => none
  | some d => if d = [] then none else some ("https://doi.org/".data ++ d)

/-- An RSS `item` element as assembled by `add_article_to_feed`: optional
fields are `none` exactly when the corresponding XML element is omitted. -/
structure RSSItem where
  title : Str
  link : Option Str
  guid : Option Str
  guidIsPermaLink : Option Bool
  description : Str
  pubDate : Option PyDate
  source : Str
  categories : List Str
deriving DecidableEq, Repr

/-- `add_article_to_feed` (lines 189-277): derivation of one RSS item from
an article record and its feed config (journal name and subjects). -/
def add_article_to_feed (article : Article) (feedName : Str)
    (subjects : List Str) : RSSItem :=
  { title := itemTitle article
    link := doiLink article.doi
    guid := doiLink article.doi
    guidIsPermaLink := (doiLink article.doi).map (fun _ => true)
    description := itemDescription article
    pubDate := resolvePubDate article.published
    source := clean_text feedName
    categories := ((subjects.take 3).filter
      (fun s => decide (s ≠ []) && decide (pyStrip s ≠ []))).map clean_text }

/-- A configured journal, restricted to the fields the lookup and the item
assembler read: `issn` (possibly absent from the config entry), `name`
(`journal.get('name', '')` defaults it), and `subjects`. -/
structure JournalConfig where
  issn : Option Str
  name : Option Str
  subjects : List Str
deriving DecidableEq, Repr

/-- Python `str.lower()` restricted to ASCII case mapping. -/
def pyLower (s : Str) : Str := s.map Char.toLower

/-- Replacement of every `&` by `and`, as in `.replace('&', 'and')`. -/
def replaceAmpAnd : Str → Str
  | [] => []
  | c :: rest =>
    if c = '&' then 'a' :: 'n' :: 'd' :: replaceAmpAnd rest
    else c :: replaceAmpAnd rest

/-- Journal-name normalization (line 124): lower-case, then spaces to
underscores, then `&` to `and`. -/
def normalizeJournalName (s : Str) : Str :=
  replaceAmpAnd ((pyLower s).map (fun c => if c = ' ' then '_' else c))

/-- The per-journal match test of `find_journal_by_identifier` (lines
118-126): exact ISSN equality, or normalized stored name equal to the
lower-cased identifier. -/
def journalMatches (j : JournalConfig) (identifier : Str) : Prop :=
  j.issn = some identifier ∨
    normalizeJournalName (j.name.getD []) = pyLower identifier

instance (j : JournalConfig) (identifier : Str) :
    Decidable (journalMatches j identifier) := by
  unfold journalMatches; exact inferInstance

/-- `find_journal_by_identifier` (lines 116-128): scan the configured
journals in order and return the first one whose ISSN equals the
identifier or whose normalized name equals the lower-cased identifier;
`None` when no journal matches. -/
def find_journal_by_identifier (journals : List JournalConfig)
    (identifier : Str) : Option JournalConfig :=
  journals.find? (fun j => decide (journalMatches j identifier))

/-- The combined-feed per-journal limit (`serve_combined_rss`, lines
465-467): the requested `max` floor-divided by the journal count (guarded
to at least 1 to avoid division by zero), then floored to at least 1.
Python `//` on ints is floor division, hence `Int.fdiv`. -/
def max_per_journal (maxParam : Int) (numJournals : Nat) : Int :=
  max 1 (Int.fdiv maxParam (max 1 (numJournals : Int)))

/-- The failure classes of one fetch: transport errors, timeouts,
non-success HTTP responses, and malformed JSON bodies; all are raised
inside the `try` block of `get_recent_articles_by_issn` (lines 44-60). -/
inductive FetchFailure where
  | transportError
  | timeoutExpired
  | httpStatusError
  | malformedJson
deriving DecidableEq, Repr

/-- The decoded JSON body of a successful works-query response: the
`message` member, itself carrying an optional `items` list. -/
structure CrossrefMessage where
  items : Option (List Article)
deriving DecidableEq

/-- A successful works-query response body. -/
structure CrossrefResponse where
  message : Option CrossrefMessage
deriving DecidableEq

/-- `get_recent_articles_by_issn` (lines 29-60) as a function of the
network interaction's outcome: a raised failure is caught by the blanket
`except` (lines 58-60) and becomes the empty list; a successful response
yields `data.get('message', {}).get('items', [])`. The function is total:
no outcome propagates an error to the caller. -/
def get_recent_articles_by_issn
    (outcome : Except FetchFailure CrossrefResponse) : List Article :=
  match outcome with
  | .error _ => []
  | .ok r =>
    match r.message with
    | none => []
    | some m => m.items.getD []

/-- Date comparison used as the combined-sort key order: lexicographic
less-or-equal on (year, month, day), matching `datetime` comparison. -/
def dateLe (a b : PyDate) : Prop :=
  a.year < b.year ∨
    (a.year = b.year ∧
      (a.month < b.month ∨ (a.month = b.month ∧ a.day ≤ b.day)))

instance (a b : PyDate) : Decidable (dateLe a b) := by
  unfold dateLe; exact inferInstance

/-- Insertion step of the stable descending sort: `x` is placed before the
first already-sorted element whose key is less than or equal to the key of
`x`, so an element listed earlier stays ahead of every equal-key element
listed later. -/
def insertByDateDesc (x : Article) : List Article → List Article
  | [] => [x]
  | y :: ys =>
    if dateLe (get_pub_date y) (get_pub_date x) then x :: y :: ys
    else y :: insertByDateDesc x ys

/-- `all_articles.sort(key=get_pub_date, reverse=True)` (line 330): the
stable sort by resolved publication date descending, rendered as stable
insertion sort, which produces the unique stable descending ordering. -/
def sortArticlesByDateDesc : List Article → List Article
  | [] => []
  | x :: xs => insertByDateDesc x (sortArticlesByDateDesc xs)

/-- A record with no optional field set and no authors. -/
def blankArticle : Article :=
  { title := none, doi := none, abstract := none, author := [],
    published := none }

/-- Fixture: the four-author record of the spec's description example. -/
def fourAuthorArticle : Article :=
  { blankArticle with author :=
      [⟨some "Jane".data, some "Doe".data⟩,
       ⟨some "Sam".data, some "Lee".data⟩,
       ⟨some "Al".data, some "X".data⟩,
       ⟨some "Q".data, some "Y".data⟩] }

/-- Fixture: four authors of which the first three clean to empty names
(markup-only given name, absent parts, whitespace-only parts). -/
def emptyNamesArticle : Article :=
  { blankArticle with author :=
      [⟨some "<i>".data, some "".data⟩,
       ⟨none, none⟩,
       ⟨some "  ".data, none⟩,
       ⟨some "Q".data, some "Y".data⟩] }

/-- Fixture: four authors of which only the third renders a name. -/
def oneNameArticle : Article :=
  { blankArticle with author :=
      [⟨some "<i>".data, some "".data⟩,
       ⟨none, none⟩,
       ⟨some "Al".data, some "X".data⟩,
       ⟨some "Q".data, some "Y".data⟩] }

/-- Fixture: date-parts `[2024]`. -/
def articleY : Article := { blankArticle with published := some [[2024]] }

/-- Fixture: date-parts `[2024, 6]`. -/
def articleYM : Article :=
  { blankArticle with published := some [[2024, 6]] }

/-- Fixture: date-parts `[2024, 6, 15]`. -/
def articleYMD : Article :=
  { blankArticle with published := some [[2024, 6, 15]] }

/-- Fixture: no `published` field at all. -/
def articleNoDate : Article := blankArticle

/-- Fixture: date-parts `[1, 1, 1]`, resolving exactly to `datetime.min`. -/
def articleYearOne : Article :=
  { blankArticle with published := some [[1, 1, 1]] }

/-- Fixture: a record with a DOI. -/
def doiArticle : Article :=
  { blankArticle with doi := some "10.1038/s41587".data }

/-- Fixture: a 501-character abstract of letters, which `clean_text` maps
to itself. -/
def longAbstractArticle : Article :=
  { blankArticle with abstract := some (List.replicate 501 'a') }

/-- Fixture: the journal config of the registry-lookup example. -/
def natureBiotechJournal : JournalConfig :=
  { issn := some "1087-0156".data,
    name := some "Nature Biotechnology".data,
    subjects := [] }


/-- Fixture: a record whose title sequence has a markup-laden first entry. -/
def titledArticle : Article :=
  { blankArticle with title := some ["Gene &amp; Genome".data] }

theorem dropWhile_dropWhile_self (p : Char → Bool) (l : Str) :
    (l.dropWhile p).dropWhile p = l.dropWhile p := by
  induction l with
  | nil => rfl
  | cons c rest ih => by_cases h : p c = true <;> simp [List.dropWhile_cons, h, ih]

theorem head?_dropWhile_false (p : Char → Bool) (l : Str) (c : Char)
    (h : (l.dropWhile p).head? = some c) : p c = false := by
  induction l with
  | nil => simp at h
  | cons d rest ih =>
    by_cases hd : p d = true
    · exact ih (by simpa [List.dropWhile_cons, hd] using h)
    · rw [List.dropWhile_cons, if_neg hd] at h
      simp only [List.head?_cons, Option.some.injEq] at h
      subst h
      simpa using hd

theorem dropWhile_eq_self_of_head? (p : Char → Bool) (l : Str)
    (h : ∀ c, l.head? = some c → p c = false) : l.dropWhile p = l := by
  cases l with
  | nil => rfl
  | cons c rest =>
    rw [List.dropWhile_cons, if_neg]
    simp [h c rfl]

theorem getLast?_dropWhile (p : Char → Bool) (l : Str)
    (h : l.dropWhile p ≠ []) : (l.dropWhile p).getLast? = l.getLast? := by
  induction l with
  | nil => simp at h
  | cons c rest ih =>
    by_cases hc : p c = true
    · rw [List.dropWhile_cons, if_pos hc] at h ⊢
      rw [ih h]
      cases rest with
      | nil => simp at h
      | cons d t => rw [List.getLast?_cons_cons]
    · rw [List.dropWhile_cons, if_neg hc]

theorem pyStrip_idem (l : Str) : pyStrip (pyStrip l) = pyStrip l := by
  unfold pyStrip
  have h1 : (((l.dropWhile isPySpace).reverse.dropWhile isPySpace).reverse).dropWhile
      isPySpace = ((l.dropWhile isPySpace).reverse.dropWhile isPySpace).reverse := by
    apply dropWhile_eq_self_of_head?
    intro c hc
    rw [List.head?_reverse] at hc
    by_cases h0 : (l.dropWhile isPySpace).reverse.dropWhile isPySpace = []
    · rw [h0] at hc; simp at hc
    · rw [getLast?_dropWhile _ _ h0, List.getLast?_reverse] at hc
      exact head?_dropWhile_false isPySpace l c hc
  rw [h1, List.reverse_reverse, dropWhile_dropWhile_self]

theorem pyStrip_clean_text (l : Str) :
    pyStrip (clean_text l) = clean_text l := by
  unfold clean_text
  exact pyStrip_idem _

theorem author_fallback_eq (authors : List Author) :
    (if authorDescription authors ≠ [] then authorDescription authors
     else "No description available".data) =
      (if ((authors.take 3).map authorName).filter (fun n => decide (n ≠ [])) ≠ [] then
        "Authors: ".data ++
          joinSep (", ".data)
            (((authors.take 3).map authorName).filter (fun n => decide (n ≠ []))) ++
          (if 3 < authors.length then " et al.".data else [])
      else "No description available".data) := by
  by_cases h0 : authors = []
  · subst h0; decide
  · by_cases h1 :
        ((authors.take 3).map authorName).filter (fun n => decide (n ≠ [])) = []
    · have hD : authorDescription authors = [] := by
        unfold authorDescription
        rw [if_neg h0, if_pos h1]
      rw [hD, if_neg (not_not_intro rfl), if_neg (not_not_intro h1)]
    · have hD : authorDescription authors =
          "Authors: ".data ++
            joinSep (", ".data)
              (((authors.take 3).map authorName).filter (fun n => decide (n ≠ []))) ++
            (if 3 < authors.length then " et al.".data else []) := by
        unfold authorDescription
        rw [if_neg h0, if_neg h1]
      rw [hD, if_pos (by simp [List.append_eq_nil]), if_pos h1]

theorem itemDescription_no_abstract (article : Article)
    (h : descriptionFromAbstract article.abstract = []) :
    itemDescription article =
      (if ((article.author.take 3).map authorName).filter (fun n => decide (n ≠ [])) ≠ [] then
        "Authors: ".data ++
          joinSep (", ".data)
            (((article.author.take 3).map authorName).filter (fun n => decide (n ≠ []))) ++
          (if 3 < article.author.length then " et al.".data else [])
      else "No description available".data) := by
  unfold itemDescription
  rw [h, if_neg (not_not_intro rfl)]
  exact author_fallback_eq article.author

theorem descriptionFromAbstract_of_long (a : Str)
    (h : 10 < (clean_text a).length) :
    descriptionFromAbstract (some a) =
      (if 500 < (clean_text a).length then (clean_text a).take 500 ++ "...".data
       else clean_text a) := by
  have ha : a ≠ [] := by
    intro h0; rw [h0] at h; exact absurd h (by decide)
  have hca : clean_text a ≠ [] := by
    intro h0; rw [h0] at h; exact absurd h (by decide)
  simp only [descriptionFromAbstract]
  rw [if_neg ha, if_pos ⟨hca, by rw [pyStrip_clean_text]; exact h⟩]

theorem descriptionFromAbstract_of_short (ab : Option Str)
    (h : (clean_text (ab.getD [])).length ≤ 10) :
    descriptionFromAbstract ab = [] := by
  cases ab with
  | none => rfl
  | some a =>
    by_cases ha : a = []
    · subst ha; decide
    · simp only [Option.getD_some] at h
      simp only [descriptionFromAbstract]
      rw [if_neg ha, if_neg]
      rintro ⟨-, h2⟩
      rw [pyStrip_clean_text] at h2
      omega

theorem itemDescription_eq (article : Article) :
    itemDescription article =
      (if 10 < (clean_text (article.abstract.getD [])).length then
        (if 500 < (clean_text (article.abstract.getD [])).length then
          (clean_text (article.abstract.getD [])).take 500 ++ "...".data
         else clean_text (article.abstract.getD []))
      else if ((article.author.take 3).map authorName).filter
            (fun n => decide (n ≠ [])) ≠ [] then
        "Authors: ".data ++
          joinSep (", ".data)
            (((article.author.take 3).map authorName).filter (fun n => decide (n ≠ []))) ++
          (if 3 < article.author.length then " et al.".data else [])
      else "No description available".data) := by
  by_cases h : 10 < (clean_text (article.abstract.getD [])).length
  · rw [if_pos h]
    cases hab : article.abstract with
    | none => rw [hab] at h; exact absurd h (by decide)
    | some a =>
      rw [hab] at h
      simp only [Option.getD_some] at h ⊢
      have hd := descriptionFromAbstract_of_long a h
      have hne : descriptionFromAbstract (some a) ≠ [] := by
        rw [hd]
        split
        · intro h0
          rcases List.append_eq_nil.mp h0 with ⟨-, h4⟩
          exact absurd h4 (by decide)
        · intro h0; rw [h0] at h; exact absurd h (by decide)
      unfold itemDescription
      rw [hab, if_pos hne, hd]
  · rw [if_neg h]
    exact itemDescription_no_abstract article
      (descriptionFromAbstract_of_short _ (le_of_not_lt h))

theorem dateLe_total (a b : PyDate) : dateLe a b ∨ dateLe b a := by
  unfold dateLe; omega

theorem dateLe_trans (a b c : PyDate) :
    dateLe a b → dateLe b c → dateLe a c := by
  unfold dateLe; omega

theorem dateLe_antisymm (a b : PyDate) :
    dateLe a b → dateLe b a → a = b := by
  obtain ⟨y1, m1, d1⟩ := a
  obtain ⟨y2, m2, d2⟩ := b
  unfold dateLe
  simp only [PyDate.mk.injEq]
  omega

theorem mkDatetime_bounds (y m d : Int) (p : PyDate)
    (h : mkDatetime y m d = some p) :
    1 ≤ p.year ∧ 1 ≤ p.month ∧ 1 ≤ p.day := by
  unfold mkDatetime at h
  split at h
  · rename_i hc
    cases h
    exact ⟨hc.1, hc.2.2.1, hc.2.2.2.2.1⟩
  · exact absurd h (by simp)

theorem resolvePubDate_bounds (pub : Option (List (List Int))) (p : PyDate)
    (hr : resolvePubDate pub = some p) :
    1 ≤ p.year ∧ 1 ≤ p.month ∧ 1 ≤ p.day := by
  unfold resolvePubDate at hr
  split at hr
  · exact absurd hr (by simp)
  · exact absurd hr (by simp)
  · split at hr
    · exact absurd hr (by simp)
    · exact mkDatetime_bounds _ _ _ _ hr
    · exact mkDatetime_bounds _ _ _ _ hr
    · exact mkDatetime_bounds _ _ _ _ hr

theorem dateLe_min_get_pub_date (a : Article) :
    dateLe datetimeMin (get_pub_date a) := by
  unfold get_pub_date
  cases hr : resolvePubDate a.published with
  | none => decide
  | some p =>
    have hb := resolvePubDate_bounds _ _ hr
    simp only [Option.getD_some]
    unfold dateLe datetimeMin
    dsimp only
    omega

theorem mem_insertByDateDesc (x y : Article) (l : List Article)
    (h : y ∈ insertByDateDesc x l) : y = x ∨ y ∈ l := by
  induction l with
  | nil => simpa [insertByDateDesc] using h
  | cons z zs ih =>
    unfold insertByDateDesc at h
    by_cases hc : dateLe (get_pub_date z) (get_pub_date x)
    · rw [if_pos hc] at h
      rcases List.mem_cons.mp h with rfl | h
      · exact Or.inl rfl
      · exact Or.inr h
    · rw [if_neg hc] at h
      rcases List.mem_cons.mp h with rfl | h
      · exact Or.inr (List.mem_cons_self _ _)
      · rcases ih h with h2 | h2
        · exact Or.inl h2
        · exact Or.inr (List.mem_cons_of_mem _ h2)

theorem pairwise_insertByDateDesc (x : Article) (l : List Article)
    (h : l.Pairwise (fun a b => dateLe (get_pub_date b) (get_pub_date a))) :
    (insertByDateDesc x l).Pairwise
      (fun a b => dateLe (get_pub_date b) (get_pub_date a)) := by
  induction l with
  | nil => simp [insertByDateDesc]
  | cons z zs ih =>
    rw [List.pairwise_cons] at h
    obtain ⟨hz, hzs⟩ := h
    unfold insertByDateDesc
    by_cases hc : dateLe (get_pub_date z) (get_pub_date x)
    · rw [if_pos hc, List.pairwise_cons]
      constructor
      · intro a ha
        rcases List.mem_cons.mp ha with rfl | ha
        · exact hc
        · exact dateLe_trans _ _ _ (hz a ha) hc
      · rw [List.pairwise_cons]
        exact ⟨hz, hzs⟩
    · rw [if_neg hc, List.pairwise_cons]
      constructor
      · intro a ha
        rcases mem_insertByDateDesc x a zs ha with rfl | ha
        · rcases dateLe_total (get_pub_date a) (get_pub_date z) with h2 | h2
          · exact h2
          · exact absurd h2 hc
        · exact hz a ha
      · exact ih hzs

theorem pairwise_sortArticles (l : List Article) :
    (sortArticlesByDateDesc l).Pairwise
      (fun a b => dateLe (get_pub_date b) (get_pub_date a)) := by
  induction l with
  | nil => simp [sortArticlesByDateDesc]
  | cons x xs ih => exact pairwise_insertByDateDesc x _ ih

theorem find?_eq_some_split {α : Type} (p : α → Bool) (l : List α) (x : α)
    (h : l.find? p = some x) :
    p x = true ∧ ∃ pre post, l = pre ++ x :: post ∧ ∀ y ∈ pre, p y = false := by
  induction l with
  | nil => simp at h
  | cons a rest ih =>
    cases hpa : p a with
    | true =>
      simp only [List.find?_cons, hpa, Option.some.injEq] at h
      subst h
      exact ⟨hpa, [], rest, rfl, by simp⟩
    | false =>
      simp only [List.find?_cons, hpa] at h
      obtain ⟨hx, pre, post, heq, hpre⟩ := ih h
      refine ⟨hx, a :: pre, post, by rw [heq]; rfl, ?_⟩
      intro y hy
      rcases List.mem_cons.mp hy with rfl | hy
      · exact hpa
      · exact hpre y hy

/-- C1 counterexample: in the combined sort, a record with no `published`
field that is listed before a record dated `[1, 1, 1]` stays before it,
because that date resolves exactly to `datetime.min`, the same sentinel the
sort key assigns to dateless records, and the sort is stable; so a record
lacking a resolvable date is not always placed after every record having
one. -/
theorem combined_sort_dateless_before_dated_cex :
    sortArticlesByDateDesc [articleNoDate, articleYearOne]
        = [articleNoDate, articleYearOne] ∧
    resolvePubDate articleNoDate.published = none ∧
    resolvePubDate articleYearOne.published = some datetimeMin := by decide

/-- C1 (amended): the merged sequence is sorted by resolved publication
date descending, where date-parts `[y]` resolve to January 1 of year `y`,
`[y, m]` to the first day of month `m`, and `[y, m, d]` to that exact
date; every record placed after a record lacking a resolvable date has
sort key `datetime.min`, i.e. it either lacks a resolvable date itself or
resolves exactly to 0001-01-01 (the sentinel shared with dateless
records); and the spec's four-record example sorts to 2024-06-15,
2024-06-01, 2024-01-01, then the dateless record. -/
theorem combined_sort_desc_dateless_last :
    (∀ (l : List Article) (i j : Fin (sortArticlesByDateDesc l).length),
      i < j →
      dateLe (get_pub_date ((sortArticlesByDateDesc l).get j))
        (get_pub_date ((sortArticlesByDateDesc l).get i))) ∧
    (∀ (l : List Article) (i j : Fin (sortArticlesByDateDesc l).length),
      i < j →
      resolvePubDate ((sortArticlesByDateDesc l).get i).published = none →
      get_pub_date ((sortArticlesByDateDesc l).get j) = datetimeMin) ∧
    sortArticlesByDateDesc [articleY, articleYM, articleYMD, articleNoDate]
      = [articleYMD, articleYM, articleY, articleNoDate] := by
  have hpair : ∀ (l : List Article)
      (i j : Fin (sortArticlesByDateDesc l).length), i < j →
      dateLe (get_pub_date ((sortArticlesByDateDesc l).get j))
        (get_pub_date ((sortArticlesByDateDesc l).get i)) :=
    fun l => List.pairwise_iff_get.mp (pairwise_sortArticles l)
  refine ⟨hpair, ?_, by decide⟩
  intro l i j hij hnone
  have h1 := hpair l i j hij
  have h2 : get_pub_date ((sortArticlesByDateDesc l).get i) = datetimeMin := by
    unfold get_pub_date
    rw [hnone]
    rfl
  rw [h2] at h1
  exact dateLe_antisymm _ _ h1 (dateLe_min_get_pub_date _)

/-- C1 witness: the amended property applied to a concrete two-record
list whose first sorted element is dateless. -/
theorem combined_sort_desc_dateless_last_witness :
    get_pub_date ((sortArticlesByDateDesc
      [articleNoDate, articleYearOne]).get ⟨1, by decide⟩) = datetimeMin :=
  combined_sort_desc_dateless_last.2.1 [articleNoDate, articleYearOne]
    ⟨0, by decide⟩ ⟨1, by decide⟩ (by decide) (by decide)

/-- C2: for every article record, the item description is the cleaned
(and truncated) abstract when its cleaned length exceeds 10 characters;
otherwise "Authors: " followed by the non-empty cleaned given+family names
of the first three authors, comma-separated, with " et al." appended
exactly when the record has more than three authors; otherwise the literal
"No description available"; the spec's four-author example renders as
"Authors: Jane Doe, Sam Lee, Al X et al.". -/
theorem description_abstract_authors_fallback :
    (∀ article : Article,
      itemDescription article =
        (if 10 < (clean_text (article.abstract.getD [])).length then
          (if 500 < (clean_text (article.abstract.getD [])).length then
            (clean_text (article.abstract.getD [])).take 500 ++ "...".data
           else clean_text (article.abstract.getD []))
        else if ((article.author.take 3).map authorName).filter
              (fun n => decide (n ≠ [])) ≠ [] then
          "Authors: ".data ++
            joinSep (", ".data)
              (((article.author.take 3).map authorName).filter
                (fun n => decide (n ≠ []))) ++
            (if 3 < article.author.length then " et al.".data else [])
        else "No description available".data)) ∧
    itemDescription fourAuthorArticle
      = "Authors: Jane Doe, Sam Lee, Al X et al.".data :=
  ⟨itemDescription_eq, by decide⟩

/-- C3: for every abstract whose cleaned text is longer than 500
characters, the item description is the 500-character prefix of the
cleaned text with the ellipsis marker appended: the part before the marker
has length exactly 500, and truncation applies to the cleaned text. -/
theorem abstract_truncated_at_500 :
    ∀ (article : Article) (a : Str), article.abstract = some a →
      500 < (clean_text a).length →
      itemDescription article = (clean_text a).take 500 ++ "...".data ∧
      ((clean_text a).take 500).length = 500 ∧
      (itemDescription article).length = 500 + ("...".data).length := by
  intro article a hab h500
  have h10 : 10 < (clean_text a).length := by omega
  have hd := descriptionFromAbstract_of_long a h10
  rw [if_pos h500] at hd
  have hne : descriptionFromAbstract (some a) ≠ [] := by
    rw [hd]
    intro h0
    rcases List.append_eq_nil.mp h0 with ⟨-, h4⟩
    exact absurd h4 (by decide)
  have hitem : itemDescription article
      = (clean_text a).take 500 ++ "...".data := by
    unfold itemDescription
    rw [hab, if_pos hne, hd]
  refine ⟨hitem, ?_, ?_⟩
  · rw [List.length_take]
    omega
  · rw [hitem, List.length_append, List.length_take]
    have h3 : ("...".data).length = 3 := by decide
    omega

/-- C3 witness: a 501-character abstract is truncated to 500 characters
plus the marker. -/
theorem abstract_truncated_at_500_witness :
    itemDescription longAbstractArticle
        = (clean_text (List.replicate 501 'a')).take 500 ++ "...".data ∧
    ((clean_text (List.replicate 501 'a')).take 500).length = 500 ∧
    (itemDescription longAbstractArticle).length = 500 + ("...".data).length :=
  abstract_truncated_at_500 longAbstractArticle (List.replicate 501 'a')
    rfl (by decide)

/-- C4: the text normalizer decodes entities before stripping tags and
collapses and trims whitespace, so a literal-tagged string keeps its
decoded ampersand and an entity-escaped tagged string loses its decoded
tags: clean of the two spec examples gives "Foo & Bar" and "A Title". -/
theorem clean_text_decodes_then_strips :
    clean_text ("<i>Foo &amp; Bar</i>".data) = "Foo & Bar".data ∧
    clean_text ("A &lt;b&gt; Title &lt;/b&gt;".data) = "A Title".data := by
  decide

/-- C5: the item link and guid are both the DOI resolver URL when the
record has a (non-empty) DOI, with the guid marked as a permanent link,
and both are omitted entirely when the record has no DOI. -/
theorem item_link_guid_iff_doi :
    ∀ (article : Article) (feedName : Str) (subjects : List Str),
      (∀ d : Str, article.doi = some d → d ≠ [] →
        (add_article_to_feed article feedName subjects).link
            = some ("https://doi.org/".data ++ d) ∧
        (add_article_to_feed article feedName subjects).guid
            = some ("https://doi.org/".data ++ d) ∧
        (add_article_to_feed article feedName subjects).guidIsPermaLink
            = some true) ∧
      (article.doi = none →
        (add_article_to_feed article feedName subjects).link = none ∧
        (add_article_to_feed article feedName subjects).guid = none ∧
        (add_article_to_feed article feedName subjects).guidIsPermaLink
          = none) := by
  intro article feedName subjects
  constructor
  · intro d hd hdne
    have hl : doiLink article.doi = some ("https://doi.org/".data ++ d) := by
      rw [hd]
      show (if d = [] then none
        else some ("https://doi.org/".data ++ d)) = _
      rw [if_neg hdne]
    refine ⟨?_, ?_, ?_⟩ <;> simp [add_article_to_feed, hl]
  · intro hd
    have hl : doiLink article.doi = none := by rw [hd]; rfl
    refine ⟨?_, ?_, ?_⟩ <;> simp [add_article_to_feed, hl]

/-- C5 witness: a record with DOI 10.1038/s41587 gets link, guid and the
permalink flag; a record with no DOI gets none of them. -/
theorem item_link_guid_iff_doi_witness :
    ((add_article_to_feed doiArticle ("Nature Biotechnology".data) []).link
        = some ("https://doi.org/".data ++ "10.1038/s41587".data) ∧
     (add_article_to_feed doiArticle ("Nature Biotechnology".data) []).guid
        = some ("https://doi.org/".data ++ "10.1038/s41587".data) ∧
     (add_article_to_feed doiArticle
        ("Nature Biotechnology".data) []).guidIsPermaLink = some true) ∧
    ((add_article_to_feed blankArticle ("Nature Biotechnology".data) []).link
        = none ∧
     (add_article_to_feed blankArticle ("Nature Biotechnology".data) []).guid
        = none ∧
     (add_article_to_feed blankArticle
        ("Nature Biotechnology".data) []).guidIsPermaLink = none) :=
  ⟨(item_link_guid_iff_doi doiArticle ("Nature Biotechnology".data) []).1
      ("10.1038/s41587".data) rfl (by decide),
   (item_link_guid_iff_doi blankArticle ("Nature Biotechnology".data) []).2
      rfl⟩

/-- C6: registry lookup scans the configured journals in order, matching a
journal by exact ISSN equality or by case-insensitive normalized name
(spaces to underscores, ampersand to "and"); the first matching journal
wins, no match gives not-found, and the identifier "nature_biotechnology"
matches a stored name "Nature Biotechnology". -/
theorem registry_lookup_issn_then_name :
    (∀ (journals : List JournalConfig) (identifier : Str),
      find_journal_by_identifier journals identifier = none ↔
        ∀ j ∈ journals, ¬ journalMatches j identifier) ∧
    (∀ (journals : List JournalConfig) (identifier : Str) (j : JournalConfig),
      find_journal_by_identifier journals identifier = some j →
        journalMatches j identifier ∧
        ∃ pre post, journals = pre ++ j :: post ∧
          ∀ j' ∈ pre, ¬ journalMatches j' identifier) ∧
    find_journal_by_identifier [natureBiotechJournal]
        ("nature_biotechnology".data) = some natureBiotechJournal := by
  refine ⟨?_, ?_, by decide⟩
  · intro journals identifier
    unfold find_journal_by_identifier
    rw [List.find?_eq_none]
    constructor
    · intro h j hj
      simpa using h j hj
    · intro h j hj
      simpa using h j hj
  · intro journals identifier j h
    obtain ⟨hx, pre, post, heq, hpre⟩ :=
      find?_eq_some_split (fun j => decide (journalMatches j identifier))
        journals j h
    refine ⟨by simpa using hx, pre, post, heq, ?_⟩
    intro j' hj'
    simpa using hpre j' hj'

/-- C6 witness: the first-match characterization applied to a one-journal
registry looked up by normalized name. -/
theorem registry_lookup_issn_then_name_witness :
    journalMatches natureBiotechJournal ("nature_biotechnology".data) ∧
    ∃ pre post, [natureBiotechJournal]
        = pre ++ natureBiotechJournal :: post ∧
      ∀ j' ∈ pre, ¬ journalMatches j' ("nature_biotechnology".data) :=
  registry_lookup_issn_then_name.2.1 [natureBiotechJournal]
    ("nature_biotechnology".data) natureBiotechJournal (by decide)

/-- C7: the item title is the cleaned first element of the title sequence,
and is the literal "Untitled" whenever the title field is absent or the
sequence is empty. -/
theorem item_title_untitled_fallback :
    ∀ article : Article,
      ((article.title = none ∨ article.title = some []) →
        itemTitle article = "Untitled".data) ∧
      (∀ (t : Str) (rest : List Str), article.title = some (t :: rest) →
        itemTitle article = clean_text t) := by
  intro article
  constructor
  · rintro (h | h) <;> (unfold itemTitle; rw [h]; decide)
  · intro t rest h
    unfold itemTitle
    rw [h]

/-- C7 witness: an absent title renders as "Untitled"; a present title
sequence renders as the cleaned first element. -/
theorem item_title_untitled_fallback_witness :
    itemTitle blankArticle = "Untitled".data ∧
    itemTitle titledArticle = clean_text ("Gene &amp; Genome".data) :=
  ⟨(item_title_untitled_fallback blankArticle).1 (Or.inl rfl),
   (item_title_untitled_fallback titledArticle).2
      ("Gene &amp; Genome".data) [] rfl⟩

/-- C8: for a combined-feed request over n configured journals (n at least
1) with requested maximum M, the per-journal limit equals
max(1, floor(M / n)); it is always at least 1, and the floor division
drops the remainder of M modulo n. -/
theorem combined_max_split_floor :
    ∀ (maxParam : Int) (n : Nat), 1 ≤ n →
      max_per_journal maxParam n = max 1 (Int.fdiv maxParam (n : Int)) ∧
      1 ≤ max_per_journal maxParam n ∧
      (n : Int) * Int.fdiv maxParam (n : Int) + Int.fmod maxParam (n : Int)
        = maxParam := by
  intro maxParam n hn
  have hmax : max 1 ((n : Nat) : Int) = ((n : Nat) : Int) := by
    apply max_eq_right
    exact_mod_cast hn
  refine ⟨?_, ?_, ?_⟩
  · unfold max_per_journal
    rw [hmax]
  · unfold max_per_journal
    exact le_max_left _ _
  · exact Int.fdiv_add_fmod maxParam ((n : Nat) : Int)

/-- C8 witness: a requested maximum of 20 over 3 journals gives each
journal a limit of max(1, 6) = 6, dropping the remainder 2. -/
theorem combined_max_split_floor_witness :
    max_per_journal 20 3 = max 1 (Int.fdiv 20 ((3 : Nat) : Int)) ∧
    1 ≤ max_per_journal 20 3 ∧
    ((3 : Nat) : Int) * Int.fdiv 20 ((3 : Nat) : Int)
        + Int.fmod 20 ((3 : Nat) : Int) = 20 :=
  combined_max_split_floor 20 3 (by decide)

/-- C9: every failed fetch outcome (transport error, timeout, non-success
response, malformed JSON) is converted to the empty article list, which is
indistinguishable from a successful response carrying an empty items list;
the handler is a total function, so no failure propagates. -/
theorem fetch_failure_yields_empty :
    (∀ e : FetchFailure, get_recent_articles_by_issn (.error e) = []) ∧
    (∀ e : FetchFailure,
      get_recent_articles_by_issn (.error e)
        = get_recent_articles_by_issn (.ok ⟨some ⟨some []⟩⟩)) :=
  ⟨fun _ => rfl, fun _ => rfl⟩

/-- C10: in the author fallback, an author among the first three whose
cleaned given and family names are both empty is skipped from the rendered
list (the filter drops the empty rendered name), while the " et al."
suffix depends only on the total author count exceeding 3; when all of the
first three authors clean to empty names the description falls back to
"No description available" even for a non-empty author list. -/
theorem author_fallback_skips_empty_names :
    ∀ article : Article,
      descriptionFromAbstract article.abstract = [] →
      ((((article.author.take 3).map authorName).filter
          (fun n => decide (n ≠ []))) = [] →
        itemDescription article = "No description available".data) ∧
      (∀ ns, (((article.author.take 3).map authorName).filter
          (fun n => decide (n ≠ []))) = ns → ns ≠ [] →
        itemDescription article =
          "Authors: ".data ++ joinSep (", ".data) ns ++
            (if 3 < article.author.length then " et al.".data else [])) := by
  intro article h
  have hi := itemDescription_no_abstract article h
  constructor
  · intro hf
    rw [hi, hf, if_neg (not_not_intro rfl)]
  · intro ns hns hne
    rw [hns] at hi
    rw [hi, if_pos hne]

/-- C10 witness: with all of the first three authors cleaning to empty
names, a four-author record falls back to "No description available";
with a single rendered name among the first three, the suffix " et al."
still appears because the total count is 4. -/
theorem author_fallback_skips_empty_names_witness :
    (itemDescription emptyNamesArticle = "No description available".data ∧
     emptyNamesArticle.author ≠ []) ∧
    itemDescription oneNameArticle =
      "Authors: ".data ++ joinSep (", ".data) ["Al X".data] ++
        (if 3 < oneNameArticle.author.length then " et al.".data else []) :=
  ⟨⟨(author_fallback_skips_empty_names emptyNamesArticle (by decide)).1
      (by decide), by decide⟩,
   (author_fallback_skips_empty_names oneNameArticle (by decide)).2
      ["Al X".data] (by decide) (by decide)⟩
